import Mathlib

/-!
# Verification of the 4CAT job-queue core (`common/lib/job.py`)

Shallow embedding of the `Job` class and its interaction with the job
record store.  Timestamps and counters are modelled as `Int` (Python
integers), the store as a list of job rows, and the database layer's
conditional update / delete as pure functions returning the new store
together with the affected-row count.
-/

set_option autoImplicit false

namespace FourCat

/-- A decoded JSON value, as produced by Python's `json.loads`. -/
inductive JsonValue where
  | null
  | bool (b : Bool)
  | num (n : Int)
  | str (s : String)
  | arr (xs : List JsonValue)
  | obj (kvs : List (String × JsonValue))


/-- Python truthiness of a decoded JSON value (`if details:` in the source):
`None`, `False`, `0`, `""`, `[]` and `{}` are falsy, everything else truthy. -/
def JsonValue.truthy : JsonValue → Bool
  | .null => false
  | .bool b => b
  | .num n => n != 0
  | .str s => s != ""
  | .arr xs => !xs.isEmpty
  | .obj kvs => !kvs.isEmpty

/-- Outcome of running `json.loads` on the stored `details` value.  The JSON
library is external to the repository, so the stored field is embedded by the
observable outcome of decoding it: `json.loads(None)` (SQL NULL) raises
`TypeError`; an empty or malformed string raises `json.JSONDecodeError`;
otherwise decoding yields a `JsonValue`. -/
inductive LoadOutcome where
  | typeError
  | decodeError
  | ok (v : JsonValue)


/-- One row of the `jobs` table (the `data` mapping of a `Job`).  The
`details` field is `Option`al because the in-memory mapping handed to
`Job.__init__` may lack the key entirely; `some o` means the key is present
and decoding it has outcome `o`.  `is_finished_field` models the optional
`is_finished` key checked by `Job.__init__`. -/
structure JobData where
  id : Int
  jobtype : String
  remote_id : String
  details : Option LoadOutcome
  interval : Int
  timestamp_claimed : Int
  timestamp_lastclaimed : Int
  timestamp_after : Int
  attempts : Int
  instance_id : String
  is_finished_field : Option Bool


/-- The job record store: the rows of the `jobs` table. -/
abbrev Store := List JobData

/-- A `WHERE` clause as used by `job.py`: always matched on `id`, and for
`claim` additionally on `timestamp_claimed`. -/
structure WhereClause where
  id : Int
  timestamp_claimed : Option Int


/-- Does a row match a `WHERE` clause? -/
def matchesWhere (w : WhereClause) (r : JobData) : Bool :=
  r.id == w.id &&
    (match w.timestamp_claimed with
     | none => true
     | some t => r.timestamp_claimed == t)

/-- Column assignments of an `UPDATE`: `some v` sets the column to `v`,
`none` leaves it alone.  Only the columns `job.py` ever writes appear. -/
structure UpdateVals where
  timestamp_claimed : Option Int
  timestamp_lastclaimed : Option Int
  timestamp_after : Option Int
  attempts : Option Int
  instance_id : Option String


/-- Apply an `UPDATE`'s assignments to a single row. -/
def applyUpdate (u : UpdateVals) (r : JobData) : JobData :=
  { r with
    timestamp_claimed := u.timestamp_claimed.getD r.timestamp_claimed
    timestamp_lastclaimed := u.timestamp_lastclaimed.getD r.timestamp_lastclaimed
    timestamp_after := u.timestamp_after.getD r.timestamp_after
    attempts := u.attempts.getD r.attempts
    instance_id := u.instance_id.getD r.instance_id }

/-- Number of rows matching a `WHERE` clause. -/
def affectedCount (s : Store) (w : WhereClause) : Nat :=
  (s.filter (matchesWhere w)).length

/-- Modelled from the spec: the database handler's `update` (the
`conditional_update(table, new_values, match_predicate) -> affected_row_count`
contract of the Job Record Store; `common/lib/database.py` is not among the
provided sources).  Atomically updates every matching row and returns the new
store together with the affected-row count. -/
def dbUpdate (s : Store) (u : UpdateVals) (w : WhereClause) : Store × Nat :=
  (s.map (fun r => if matchesWhere w r then applyUpdate u r else r),
   affectedCount s w)

/-- Modelled from the spec: the database handler's `delete`
(`delete(table, match_predicate) -> affected_row_count` contract of the
Job Record Store).  Removes every matching row. -/
def dbDelete (s : Store) (w : WhereClause) : Store × Nat :=
  (s.filter (fun r => !matchesWhere w r), affectedCount s w)

/-- In-memory `Job` object: the `data` mapping plus the two flags set by
`Job.__init__`, `claim`, `finish` and `release`. -/
structure Job where
  data : JobData
  is_claimed : Bool
  is_finished : Bool


/-- `Job.__init__`: `is_finished` is the truthiness of the optional
`is_finished` key, and `is_claimed` is
`data["timestamp_claimed"] and data["timestamp_claimed"] > 0`. -/
def Job.fromRow (d : JobData) : Job :=
  { data := d
    is_claimed := d.timestamp_claimed != 0 && decide (0 < d.timestamp_claimed)
    is_finished := d.is_finished_field.getD false }

/-- Errors raised by the embedded operations: `JobClaimedException` from
`claim`, and Python's `KeyError` from a missing mapping key. -/
inductive JobError where
  | alreadyClaimed
  | keyError


/-- The claim timestamp computed by `Job.claim` at wall-clock time `now`:
`int(time.time())` when `interval == 0`, otherwise
`math.floor(now / interval) * interval` (floor division). -/
def claimTime (now interval : Int) : Int :=
  if interval == 0 then now else (Int.fdiv now interval) * interval

/-- `Job.claim`, at wall-clock time `now` with instance identity `iid`.
Issues the conditional update guarded by `id` and `timestamp_claimed = 0`;
if zero rows were affected it raises `JobClaimedException`, otherwise it
copies the claim time into the in-memory mapping and sets `is_claimed`. -/
def Job.claim (j : Job) (s : Store) (now : Int) (iid : String) :
    Job × Store × Option JobError :=
  let ct := claimTime now j.data.interval
  let upd := dbUpdate s
    { timestamp_claimed := some ct
      timestamp_lastclaimed := some ct
      timestamp_after := none
      attempts := none
      instance_id := some iid }
    { id := j.data.id, timestamp_claimed := some 0 }
  if upd.2 == 0 then
    (j, upd.1, some .alreadyClaimed)
  else
    ({ data := { j.data with timestamp_claimed := ct, timestamp_lastclaimed := ct }
       is_claimed := true
       is_finished := j.is_finished },
     upd.1, none)

/-- `Job.finish(delete)`: deletes the row when `interval == 0 or delete`,
otherwise resets `timestamp_claimed` and `attempts` to `0`; always sets the
in-memory `is_finished` flag. -/
def Job.finish (j : Job) (s : Store) (delete : Bool) : Job × Store :=
  if j.data.interval == 0 || delete then
    ({ j with is_finished := true },
     (dbDelete s { id := j.data.id, timestamp_claimed := none }).1)
  else
    ({ j with is_finished := true },
     (dbUpdate s
       { timestamp_claimed := some 0
         timestamp_lastclaimed := none
         timestamp_after := none
         attempts := some 0
         instance_id := none }
       { id := j.data.id, timestamp_claimed := none }).1)

/-- `Job.release(delay, claim_after)` at wall-clock time `now`.  Python's
defaults are `delay=0, claim_after=0`, i.e. `claim_after = some 0` here; a
caller passing `None` gives `claim_after = none`.  Sets `timestamp_claimed`
to `0` and `attempts` to the in-memory `attempts + 1`; sets
`timestamp_after` to `now + delay` when `delay > 0`, else to `claim_after`
whenever it is not `None`.  Clears the in-memory `is_claimed` flag. -/
def Job.release (j : Job) (s : Store) (now delay : Int)
    (claim_after : Option Int) : Job × Store :=
  let upd : UpdateVals :=
    { timestamp_claimed := some 0
      timestamp_lastclaimed := none
      timestamp_after :=
        if 0 < delay then some (now + delay)
        else
          match claim_after with
          | some ca => some ca
          | none => none
      attempts := some (j.data.attempts + 1)
      instance_id := none }
  ({ j with is_claimed := false },
   (dbUpdate s upd { id := j.data.id, timestamp_claimed := none }).1)

/-- `Job.is_claimable`: pure function of the in-memory state and the clock. -/
def Job.is_claimable (j : Job) (now : Int) : Bool :=
  !j.is_claimed && !j.is_finished &&
    decide (j.data.timestamp_lastclaimed < now - j.data.interval)

/-- The `Job.details` property.  A missing `details` key makes the mapping
access `self.data["details"]` raise `KeyError` (not caught by the accessor);
`TypeError` and `json.JSONDecodeError` are caught and yield `{}`; a decoded
value is returned as-is when truthy, else `{}`. -/
def Job.details (j : Job) : Except JobError JsonValue :=
  match j.data.details with
  | none => .error .keyError
  | some .typeError => .ok (.obj [])
  | some .decodeError => .ok (.obj [])
  | some (.ok v) => if v.truthy then .ok v else .ok (.obj [])


/-! ## Concrete rows used by counterexamples and witnesses -/

/-- A one-shot job row (`interval = 0`) that was claimed in the past
(`timestamp_lastclaimed = 1000`) and has since been released
(`timestamp_claimed = 0`). -/
def oneShotRow : JobData :=
  { id := 1
    jobtype := "misc"
    remote_id := "r1"
    details := some .typeError
    interval := 0
    timestamp_claimed := 0
    timestamp_lastclaimed := 1000
    timestamp_after := 0
    attempts := 1
    instance_id := "*"
    is_finished_field := none }

/-- A recurring job row (`interval = 600`) currently claimed, with a pending
retry delay `timestamp_after = 500` and `attempts = 2`. -/
def recurringRow : JobData :=
  { id := 7
    jobtype := "t"
    remote_id := "r7"
    details := some .typeError
    interval := 600
    timestamp_claimed := 1200
    timestamp_lastclaimed := 1200
    timestamp_after := 500
    attempts := 2
    instance_id := "worker"
    is_finished_field := none }

/-! ## Claimability (C6, C7) -/

/-- The spec's claimability formula (§4.5): not claimed, not finished, and
`timestamp_lastclaimed < now - interval`, over in-memory state and the clock
only. -/
def claimableSpec (j : Job) (now : Int) : Prop :=
  j.is_claimed = false ∧ j.is_finished = false ∧
    j.data.timestamp_lastclaimed < now - j.data.interval

/-- C6: for every job and wall-clock time `now`, `is_claimable()` returns
true iff the job is not claimed, not finished, and
`timestamp_lastclaimed < now - interval`; the embedded predicate is a pure
function of the in-memory `Job` and the clock (it takes no store argument). -/
theorem is_claimable_iff_spec (j : Job) (now : Int) :
    j.is_claimable now = true ↔ claimableSpec j now := by
  simp [Job.is_claimable, claimableSpec, Bool.not_eq_true', and_assoc]

/-- C7 counterexample: a one-shot job (`interval = 0`) that was claimed before
(`timestamp_lastclaimed = 1000 > 0`) and released is claimable again at
`now = 1002`, contradicting "never claimable, even after being released". -/
theorem oneShot_reclaimable_counterexample :
    oneShotRow.interval = 0 ∧ 0 < oneShotRow.timestamp_lastclaimed ∧
    (Job.fromRow oneShotRow).is_claimable 1002 = true := by
  refine ⟨rfl, by decide, rfl⟩

/-- C7 amended: for a one-shot job (`interval = 0`) the claimability
predicate reduces to "not claimed, not finished, and
`timestamp_lastclaimed < now`"; a previously claimed one-shot job becomes
claimable again as soon as `now` exceeds `timestamp_lastclaimed`. -/
theorem oneShot_claimable_iff (j : Job) (now : Int)
    (h : j.data.interval = 0) :
    j.is_claimable now = true ↔
      j.is_claimed = false ∧ j.is_finished = false ∧
        j.data.timestamp_lastclaimed < now := by
  simp [Job.is_claimable, h, Bool.not_eq_true', and_assoc]

/-- Witness for the amended C7 at a concrete input. -/
theorem oneShot_claimable_iff_witness :
    (Job.fromRow oneShotRow).is_claimable 1002 = true :=
  (oneShot_claimable_iff (Job.fromRow oneShotRow) 1002 rfl).mpr
    ⟨rfl, rfl, by decide⟩

/-! ## The details accessor (C8, C9) -/

/-- C8 counterexample: a `Job` built from a mapping with no `details` key —
the accessor evaluates `self.data["details"]`, which raises `KeyError`, an
exception the accessor does not catch.  So the accessor is not total for an
absent field. -/
theorem details_absent_raises :
    (Job.fromRow { oneShotRow with details := none }).details =
      .error .keyError := rfl

/-- C8 amended: whenever the `details` key is present, the accessor never
raises: it returns some value, and that value is the empty mapping when
decoding raised `TypeError` (null field) or `JSONDecodeError` (empty string
or invalid JSON). -/
theorem details_total_when_present (j : Job) (o : LoadOutcome)
    (h : j.data.details = some o) :
    ∃ v, j.details = .ok v ∧
      ((o = .typeError ∨ o = .decodeError) → v = .obj []) := by
  cases o with
  | typeError => exact ⟨.obj [], by simp [Job.details, h], fun _ => rfl⟩
  | decodeError => exact ⟨.obj [], by simp [Job.details, h], fun _ => rfl⟩
  | ok v =>
    refine ⟨if v.truthy then v else .obj [], ?_, ?_⟩
    · cases hv : v.truthy <;> simp [Job.details, h, hv]
    · rintro (h' | h') <;> cases h'

/-- Witness for the amended C8 at a concrete input (invalid JSON). -/
theorem details_total_when_present_witness :
    ∃ v, (Job.fromRow { oneShotRow with details := some .decodeError }).details
        = .ok v ∧
      ((LoadOutcome.decodeError = .typeError ∨
        LoadOutcome.decodeError = .decodeError) → v = .obj []) :=
  details_total_when_present
    (Job.fromRow { oneShotRow with details := some .decodeError })
    .decodeError rfl

/-- C9: when the stored `details` decode to a value, the accessor returns the
value itself when it is truthy and the empty mapping when it is falsy
(`0`, `false`, `""`, `[]`, `{}`, `null`). -/
theorem details_truthiness (j : Job) (v : JsonValue)
    (h : j.data.details = some (.ok v)) :
    j.details = .ok (if v.truthy then v else .obj []) := by
  cases hv : v.truthy <;> simp [Job.details, h, hv]

/-- Witness for C9 at a concrete falsy decoded value (`0`). -/
theorem details_truthiness_witness :
    (Job.fromRow { oneShotRow with details := some (.ok (.num 0)) }).details
      = .ok (.obj []) := by
  have h := details_truthiness
    (Job.fromRow { oneShotRow with details := some (.ok (.num 0)) })
    (.num 0) rfl
  simpa using h

/-! ## Release (C5, C10) -/

/-- C10: `release` mutates only the store and the `is_claimed` flag: the
in-memory mapping is returned unchanged (in particular its `attempts`,
`timestamp_claimed` and `timestamp_after` entries still hold the pre-release
values), `is_finished` is untouched, and `is_claimed` is false. -/
theorem release_frame (j : Job) (s : Store) (now delay : Int)
    (ca : Option Int) :
    (j.release s now delay ca).1.data = j.data ∧
    (j.release s now delay ca).1.is_claimed = false ∧
    (j.release s now delay ca).1.is_finished = j.is_finished ∧
    (j.release s now delay ca).1.data.attempts = j.data.attempts ∧
    (j.release s now delay ca).1.data.timestamp_claimed
      = j.data.timestamp_claimed ∧
    (j.release s now delay ca).1.data.timestamp_after
      = j.data.timestamp_after :=
  ⟨rfl, rfl, rfl, rfl, rfl, rfl⟩

/-! ## Helper lemmas about the store operations -/

/-- A row matched by the update's `WHERE` clause appears updated in the new
store. -/
theorem applyUpdate_mem_dbUpdate (s : Store) (u : UpdateVals)
    (w : WhereClause) (r : JobData) (hr : r ∈ s)
    (hm : matchesWhere w r = true) :
    applyUpdate u r ∈ (dbUpdate s u w).1 := by
  have h : (if matchesWhere w r then applyUpdate u r else r)
      ∈ (dbUpdate s u w).1 :=
    List.mem_map_of_mem (fun x => if matchesWhere w x then applyUpdate u x else x) hr
  rw [hm] at h
  simp only [eq_self_iff_true, if_true] at h
  exact h

/-- A row not matched by the update's `WHERE` clause appears unchanged in the
new store. -/
theorem unmatched_mem_dbUpdate (s : Store) (u : UpdateVals)
    (w : WhereClause) (r : JobData) (hr : r ∈ s)
    (hm : matchesWhere w r = false) :
    r ∈ (dbUpdate s u w).1 := by
  have h : (if matchesWhere w r then applyUpdate u r else r)
      ∈ (dbUpdate s u w).1 :=
    List.mem_map_of_mem (fun x => if matchesWhere w x then applyUpdate u x else x) hr
  rw [hm] at h
  simp only [Bool.false_eq_true, if_false] at h
  exact h

/-- A zero affected-row count means no row of the store matches the clause. -/
theorem affectedCount_eq_zero (s : Store) (w : WhereClause)
    (h : affectedCount s w = 0) : ∀ r ∈ s, matchesWhere w r = false := by
  intro r hr
  have hnil : s.filter (matchesWhere w) = [] := List.length_eq_zero.mp h
  have := List.filter_eq_nil_iff.mp hnil r hr
  simpa using this

/-- An update that matches no row leaves the store unchanged. -/
theorem dbUpdate_no_match (s : Store) (u : UpdateVals) (w : WhereClause)
    (h : ∀ r ∈ s, matchesWhere w r = false) : (dbUpdate s u w).1 = s := by
  induction s with
  | nil => rfl
  | cons a t ih =>
    have ha := h a (List.mem_cons_self a t)
    have ht := ih (fun r hr => h r (List.mem_cons_of_mem a hr))
    simp only [dbUpdate, List.map_cons, ha] at ht ⊢
    simp [ht]

/-- A claimable recurring row (`interval = 600`, unclaimed). -/
def claimableRow : JobData :=
  { id := 5
    jobtype := "t"
    remote_id := "r5"
    details := some .typeError
    interval := 600
    timestamp_claimed := 0
    timestamp_lastclaimed := 0
    timestamp_after := 0
    attempts := 0
    instance_id := "*"
    is_finished_field := none }

/-! ## Claim (C1, C2, C3) -/

/-- C3: when the conditional update of `claim` affects zero rows, the call
raises `JobClaimedException` and returns the in-memory `Job` (its `data`
mapping and `is_claimed` flag) and the store exactly as they were. -/
theorem claim_lost_race (j : Job) (s : Store) (now : Int) (iid : String)
    (h : affectedCount s { id := j.data.id, timestamp_claimed := some 0 } = 0) :
    j.claim s now iid = (j, s, some .alreadyClaimed) := by
  have hall := affectedCount_eq_zero s
    { id := j.data.id, timestamp_claimed := some 0 } h
  have hmap := dbUpdate_no_match s
    { timestamp_claimed := some (claimTime now j.data.interval)
      timestamp_lastclaimed := some (claimTime now j.data.interval)
      timestamp_after := none
      attempts := none
      instance_id := some iid }
    { id := j.data.id, timestamp_claimed := some 0 } hall
  simp only [Job.claim, dbUpdate, affectedCount] at hmap ⊢
  simp only [affectedCount] at h
  simp [h, hmap]

/-- Witness for C3: the row is already claimed (`timestamp_claimed = 1200`),
so the conditional update matches nothing and the claim attempt fails,
leaving job and store untouched. -/
theorem claim_lost_race_witness :
    (Job.fromRow recurringRow).claim [recurringRow] 2000 "workerB"
      = (Job.fromRow recurringRow, [recurringRow], some .alreadyClaimed) :=
  claim_lost_race (Job.fromRow recurringRow) [recurringRow] 2000 "workerB" rfl

/-- C2: a successful `claim` at wall-clock time `now` writes the computed
claim time into both `timestamp_claimed` and `timestamp_lastclaimed` of the
in-memory mapping and of every row matched by the conditional update; the
claim time is `now` itself when `interval = 0`, and the floor-division
snap `(now fdiv interval) * interval` when `interval > 0` — an
interval-aligned boundary (divisible by `interval`) at most `now` and less
than `interval` below it. -/
theorem claim_success_timestamps (j : Job) (s : Store) (now : Int)
    (iid : String) (h : (j.claim s now iid).2.2 = none) :
    (j.claim s now iid).1.data.timestamp_claimed
        = claimTime now j.data.interval ∧
    (j.claim s now iid).1.data.timestamp_lastclaimed
        = claimTime now j.data.interval ∧
    (∀ r ∈ s, matchesWhere { id := j.data.id, timestamp_claimed := some 0 } r
        = true →
      { r with
        timestamp_claimed := claimTime now j.data.interval
        timestamp_lastclaimed := claimTime now j.data.interval
        instance_id := iid } ∈ (j.claim s now iid).2.1) ∧
    (j.data.interval = 0 → claimTime now j.data.interval = now) ∧
    (0 < j.data.interval →
      claimTime now j.data.interval
          = Int.fdiv now j.data.interval * j.data.interval ∧
      j.data.interval ∣ claimTime now j.data.interval ∧
      claimTime now j.data.interval ≤ now ∧
      now < claimTime now j.data.interval + j.data.interval) := by
  by_cases hz :
      affectedCount s { id := j.data.id, timestamp_claimed := some 0 } = 0
  · exfalso
    simp only [Job.claim, dbUpdate, affectedCount] at h
    simp only [affectedCount] at hz
    simp [hz] at h
  · have hclaim : j.claim s now iid =
        ({ data := { j.data with
              timestamp_claimed := claimTime now j.data.interval
              timestamp_lastclaimed := claimTime now j.data.interval }
           is_claimed := true
           is_finished := j.is_finished },
         (dbUpdate s
           { timestamp_claimed := some (claimTime now j.data.interval)
             timestamp_lastclaimed := some (claimTime now j.data.interval)
             timestamp_after := none
             attempts := none
             instance_id := some iid }
           { id := j.data.id, timestamp_claimed := some 0 }).1, none) := by
      simp only [Job.claim, dbUpdate, affectedCount] at hz ⊢
      simp [hz]
    refine ⟨by rw [hclaim], by rw [hclaim], ?_, ?_, ?_⟩
    · intro r hr hm
      rw [hclaim]
      have := applyUpdate_mem_dbUpdate s
        { timestamp_claimed := some (claimTime now j.data.interval)
          timestamp_lastclaimed := some (claimTime now j.data.interval)
          timestamp_after := none
          attempts := none
          instance_id := some iid }
        { id := j.data.id, timestamp_claimed := some 0 } r hr hm
      exact this
    · intro h0
      simp [claimTime, h0]
    · intro hpos
      have hne : (j.data.interval == 0) = false := by
        simp only [beq_eq_false_iff_ne, ne_eq]
        omega
      have hct : claimTime now j.data.interval
          = Int.fdiv now j.data.interval * j.data.interval := by
        simp [claimTime, hne]
      have hfd : Int.fdiv now j.data.interval = now / j.data.interval :=
        Int.fdiv_eq_ediv now (le_of_lt hpos)
      have hmod := Int.ediv_add_emod now j.data.interval
      have hnonneg := Int.emod_nonneg now (by omega : j.data.interval ≠ 0)
      have hlt := Int.emod_lt_of_pos now hpos
      refine ⟨hct, ⟨Int.fdiv now j.data.interval, by rw [hct]; ring⟩, ?_, ?_⟩
      · rw [hct, hfd]
        nlinarith [hmod, hnonneg]
      · rw [hct, hfd]
        nlinarith [hmod, hlt]

/-- Witness for C2: claiming the recurring row (`interval = 600`) at
`now = 1234` succeeds and snaps both timestamps to `1200 = 2 * 600`. -/
theorem claim_success_timestamps_witness :
    (((Job.fromRow claimableRow).claim [claimableRow] 1234
      "workerA").1.data.timestamp_claimed = 1200) ∧
    (((Job.fromRow claimableRow).claim [claimableRow] 1234
      "workerA").1.data.timestamp_lastclaimed = 1200) := by
  have h := claim_success_timestamps (Job.fromRow claimableRow)
    [claimableRow] 1234 "workerA" rfl
  exact ⟨h.1.trans (by decide), h.2.1.trans (by decide)⟩

/-- A job row whose `interval` (200) exceeds the wall-clock time (100) at
which it is claimed, so the snapped claim time is
`floor(100 / 200) * 200 = 0`. -/
def earlyClockRow : JobData :=
  { id := 3
    jobtype := "t"
    remote_id := "r3"
    details := some .typeError
    interval := 200
    timestamp_claimed := 0
    timestamp_lastclaimed := 0
    timestamp_after := 0
    attempts := 0
    instance_id := "*"
    is_finished_field := none }

/-- C1 (bug exhibit): when the snapped claim time is `0` (here
`interval = 200 > now = 100`, so `floor(100/200)*200 = 0`), a successful
claim writes `timestamp_claimed = 0` back into the row, so the guard
`timestamp_claimed = 0` of the conditional update still matches and a second
claim attempt on the same row ALSO succeeds: two of two concurrent claim
attempts succeed instead of exactly one, although `claim`'s own docstring
says a claimed job "cannot be claimed again". -/
theorem claim_snap_zero_breaks_mutex :
    (((Job.fromRow earlyClockRow).claim [earlyClockRow] 100 "workerA").2.2
        = none) ∧
    (((Job.fromRow earlyClockRow).claim [earlyClockRow] 100 "workerA").2.1
        = [{ earlyClockRow with instance_id := "workerA" }]) ∧
    (((Job.fromRow { earlyClockRow with instance_id := "workerA" }).claim
        [{ earlyClockRow with instance_id := "workerA" }] 100 "workerB").2.2
        = none) :=
  ⟨rfl, rfl, rfl⟩

/-! ## Finish (C4) -/

/-- C4: `finish(delete)` always marks the in-memory object finished; when
`delete` is set or `interval = 0` it removes every row with the job's id
from the store; otherwise each row with the job's id stays present with
`timestamp_claimed` and `attempts` reset to `0` and all other columns
unchanged, and unrelated rows are untouched. -/
theorem finish_contract (j : Job) (s : Store) (delete : Bool) :
    (j.finish s delete).1.is_finished = true ∧
    ((delete = true ∨ j.data.interval = 0) →
      ∀ r ∈ (j.finish s delete).2, r.id ≠ j.data.id) ∧
    ((delete = false ∧ j.data.interval ≠ 0) →
      (∀ r ∈ s, r.id = j.data.id →
        { r with timestamp_claimed := 0, attempts := 0 }
          ∈ (j.finish s delete).2) ∧
      (∀ r ∈ s, r.id ≠ j.data.id → r ∈ (j.finish s delete).2)) := by
  refine ⟨?_, ?_, ?_⟩
  · simp only [Job.finish]
    split <;> rfl
  · rintro hdel r hr
    have hb : (j.data.interval == 0 || delete) = true := by
      rcases hdel with hd | hi
      · simp [hd]
      · simp [hi]
    simp only [Job.finish, hb, if_true] at hr
    simp only [dbDelete, List.mem_filter] at hr
    have := hr.2
    simp only [Bool.not_eq_true'] at this
    simp only [matchesWhere, Bool.and_eq_false_iff] at this
    rcases this with h1 | h2
    · simpa using h1
    · cases h2
  · rintro ⟨hd, hi⟩
    have hb : (j.data.interval == 0 || delete) = false := by
      simp [hd, hi]
    constructor
    · intro r hr hid
      have hm : matchesWhere { id := j.data.id, timestamp_claimed := none } r
          = true := by
        simp [matchesWhere, hid]
      have hmem := applyUpdate_mem_dbUpdate s
        { timestamp_claimed := some 0
          timestamp_lastclaimed := none
          timestamp_after := none
          attempts := some 0
          instance_id := none }
        { id := j.data.id, timestamp_claimed := none } r hr hm
      simp only [Job.finish, hb, Bool.false_eq_true, if_false]
      exact hmem
    · intro r hr hid
      have hm : matchesWhere { id := j.data.id, timestamp_claimed := none } r
          = false := by
        simp [matchesWhere, hid]
      have hmem := unmatched_mem_dbUpdate s
        { timestamp_claimed := some 0
          timestamp_lastclaimed := none
          timestamp_after := none
          attempts := some 0
          instance_id := none }
        { id := j.data.id, timestamp_claimed := none } r hr hm
      simp only [Job.finish, hb, Bool.false_eq_true, if_false]
      exact hmem

/-- Witness for C4: finishing the recurring row (`interval = 600`) without
the `delete` flag keeps the row, resetting `timestamp_claimed` and
`attempts`. -/
theorem finish_contract_witness :
    { recurringRow with timestamp_claimed := 0, attempts := 0 }
      ∈ ((Job.fromRow recurringRow).finish [recurringRow] false).2 :=
  ((finish_contract (Job.fromRow recurringRow) [recurringRow] false).2.2
    ⟨rfl, by decide⟩).1 recurringRow (List.mem_cons_self recurringRow []) rfl

/-! ## Release (C5 continued) -/

/-- C5 counterexample: `release()` with Python's default arguments
(`delay=0`, `claim_after=0`) at time `2000` on a row whose
`timestamp_after` is `500` overwrites `timestamp_after` with `0` — the
field IS touched even though neither `delay` nor an explicit `claim_after`
was supplied, because the source guards on `claim_after is not None` and
the default `0` is not `None`. -/
theorem release_default_overwrites_timestamp_after :
    (((Job.fromRow recurringRow).release [recurringRow] 2000 0 (some 0)).2
      = [{ recurringRow with
            timestamp_claimed := 0
            timestamp_after := 0
            attempts := 3 }]) ∧
    recurringRow.timestamp_after = 500 :=
  ⟨rfl, rfl⟩

/-- C5 amended: `release(delay, claim_after)` at time `now` clears the
in-memory claim flag and rewrites every row with the job's id so that
`timestamp_claimed = 0`, `attempts` is the in-memory `attempts + 1`, and
`timestamp_after` becomes `now + delay` when `delay > 0`, else `claim_after`
whenever `claim_after` is not `None` (including the default `0`, so a bare
`release()` resets `timestamp_after` to `0`); `timestamp_after` is left
untouched only when `delay ≤ 0` and `claim_after` is `None`. -/
theorem release_contract (j : Job) (s : Store) (now delay : Int)
    (ca : Option Int) :
    (j.release s now delay ca).1.is_claimed = false ∧
    ∀ r ∈ s, r.id = j.data.id →
      { r with
        timestamp_claimed := 0
        attempts := j.data.attempts + 1
        timestamp_after :=
          if 0 < delay then now + delay
          else match ca with | some c => c | none => r.timestamp_after }
        ∈ (j.release s now delay ca).2 := by
  refine ⟨rfl, ?_⟩
  intro r hr hid
  have hm : matchesWhere { id := j.data.id, timestamp_claimed := none } r
      = true := by
    simp [matchesWhere, hid]
  by_cases hdel : 0 < delay
  · have hmem := applyUpdate_mem_dbUpdate s
      { timestamp_claimed := some 0
        timestamp_lastclaimed := none
        timestamp_after := if 0 < delay then some (now + delay)
          else match ca with | some c => some c | none => none
        attempts := some (j.data.attempts + 1)
        instance_id := none }
      { id := j.data.id, timestamp_claimed := none } r hr hm
    simp only [Job.release]
    simp only [hdel, if_true] at hmem ⊢
    exact hmem
  · have hmem := applyUpdate_mem_dbUpdate s
      { timestamp_claimed := some 0
        timestamp_lastclaimed := none
        timestamp_after := if 0 < delay then some (now + delay)
          else match ca with | some c => some c | none => none
        attempts := some (j.data.attempts + 1)
        instance_id := none }
      { id := j.data.id, timestamp_claimed := none } r hr hm
    simp only [Job.release]
    simp only [hdel, if_false] at hmem ⊢
    cases ca with
    | none => exact hmem
    | some c => exact hmem

/-- Witness for the amended C5: the spec's own example — `attempts = 2`,
`release(delay=60)` at `T = 2000` gives `attempts = 3`,
`timestamp_claimed = 0`, `timestamp_after = 2060`. -/
theorem release_contract_witness :
    { recurringRow with
        timestamp_claimed := 0
        attempts := 3
        timestamp_after := 2060 }
      ∈ ((Job.fromRow recurringRow).release [recurringRow] 2000 60
          (some 0)).2 := by
  have h := (release_contract (Job.fromRow recurringRow) [recurringRow]
    2000 60 (some 0)).2 recurringRow (List.mem_cons_self recurringRow []) rfl
  simpa using h

end FourCat
